import Mathlib

/-!
Verification of the pumpfun-token-display ingestion pipeline.

This file gives a shallow embedding of the event decoding, metadata
enrichment, dual-store writing, backfill diffing and query code of the
repository, and proves or refutes the specification's claims about it.

Conventions of the embedding:
* machine integers and timestamps are `Nat`;
* JavaScript exceptions are `Except String` values; a `try`/`catch`
  block is a total `match` on that value;
* I/O outcomes (HTTP fetches, store writes) are parameters: a function
  passed to the embedded operation describes what each external call
  returns, so theorems quantify over every possible outcome schedule;
* database tables are lists of rows; SQL `INSERT ... ON CONFLICT`,
  `INSERT OR IGNORE`, `INSERT OR REPLACE` and conditional `UPDATE`
  statements are translated row by row;
* the JavaScript coercion `s || ''` on a value already typed `string`
  is the identity (it maps `""` to `""`), so it is dropped.
-/

/-- TokenMetadata as built in `getTokenMetadataFromUri`
(src/lib/models/PumpfunEventListener.ts): the descriptive fields
extracted from the JSON document behind the token's URI. -/
structure TokenMetadata where
  mint : String
  name : String
  symbol : String
  uri : String
  description : String
  image : String
deriving DecidableEq, Repr

/-- The decoded `CreateEvent` payload (interface `CreateEvent` in
src/lib/models/PumpfunEventListener.ts).  The u64 reserve fields are
decoded to decimal strings by the Borsh coder, hence `String` here. -/
structure CreateEvent where
  name : String
  symbol : String
  uri : String
  mint : String
  bonding_curve : String
  user : String
  creator : String
  timestamp : String
  virtual_token_reserves : String
  virtual_sol_reserves : String
  real_token_reserves : String
  token_total_supply : String
deriving DecidableEq, Repr

/-- A name-identified event as returned by `this.coder.events.decode`:
the Anchor coder yields an event name together with the decoded data. -/
structure NamedEvent where
  name : String
  data : CreateEvent
deriving DecidableEq, Repr

/-- The fixed 8-byte CreateEvent discriminator
(`CREATE_EVENT_DISCRIMINATOR = Buffer.from([27, 114, 169, 77, 222, 235, 99, 118])`). -/
def CREATE_EVENT_DISCRIMINATOR : List Nat := [27, 114, 169, 77, 222, 235, 99, 118]

/-- Result of handling one log line's payload in `parseEventFromLog`:
either the line is not a CreateEvent (no downstream processing), or the
discriminator matched but Borsh decoding threw (caught and logged, no
downstream processing), or the event was decoded and handed to
`processCreateEvent`. -/
inductive ParseResult where
  | notMatched : ParseResult
  | decodeFailed : ParseResult
  | processed : CreateEvent → ParseResult
deriving DecidableEq, Repr

/-- `parseEventFromLog` (src/lib/models/PumpfunEventListener.ts), modelled
over the already base64-decoded payload bytes of a `Program data:` log
line.  `coder` stands for `this.coder.events.decode`; it returns `none`
when decoding throws or yields null.  The code checks
`eventData.length >= 8`, compares the first 8 bytes against the
discriminator, and only on a match attempts the Borsh decode; the decode
is wrapped in its own `try`/`catch`. -/
def parseEventFromLog (coder : List Nat → Option NamedEvent)
    (eventData : List Nat) : ParseResult :=
  if 8 ≤ eventData.length then
    if eventData.take 8 = CREATE_EVENT_DISCRIMINATOR then
      match coder eventData with
      | some decodedEvent =>
        if decodedEvent.name = "CreateEvent" then
          ParseResult.processed decodedEvent.data
        else
          ParseResult.notMatched
      | none => ParseResult.decodeFailed
    else ParseResult.notMatched
  else ParseResult.notMatched

/-- Outcome of one HTTP attempt inside `getTokenMetadataFromUri`: a
successful JSON response, a response with a non-JSON content type (the
code logs a warning and `break`s out of the retry loop), or a thrown
error (non-2xx status, network failure, or the 10-second timeout). -/
inductive FetchOutcome where
  | ok : TokenMetadata → FetchOutcome
  | badContentType : FetchOutcome
  | fail : FetchOutcome
deriving DecidableEq, Repr

/-- Observable behaviour of one run of `getTokenMetadataFromUri`: how
many HTTP attempts were issued, which inter-attempt delays were awaited
(in milliseconds, in order), and the returned value. -/
structure MetaFetchResult where
  attempts : Nat
  delays : List Nat
  result : Option TokenMetadata
deriving DecidableEq, Repr

/-- The retry loop of `getTokenMetadataFromUri`
(`for (let attempt = 0; attempt < maxRetries; attempt++)`), run over the
list of remaining attempt indices.  On a thrown error the code waits
`Math.pow(2, attempt) * 1000` ms, but only `if (attempt < maxRetries - 1)`;
a non-JSON content type `break`s; a success returns at once. -/
def fetchLoop (fetch : Nat → FetchOutcome) (maxRetries : Nat) :
    List Nat → MetaFetchResult
  | [] => ⟨0, [], none⟩
  | attempt :: rest =>
    match fetch attempt with
    | FetchOutcome.ok m => ⟨1, [], some m⟩
    | FetchOutcome.badContentType => ⟨1, [], none⟩
    | FetchOutcome.fail =>
      let tail := fetchLoop fetch maxRetries rest
      if attempt < maxRetries - 1 then
        ⟨tail.attempts + 1, (2 ^ attempt * 1000) :: tail.delays, tail.result⟩
      else
        ⟨tail.attempts + 1, tail.delays, tail.result⟩

/-- `getTokenMetadataFromUri` (src/lib/models/PumpfunEventListener.ts).
`uriValid` is the result of the two preconditions (non-empty string and
`new URL(uri)` not throwing); when it fails the function returns null
without issuing any attempt.  Otherwise the retry loop runs attempts
`0, 1, ..., maxRetries - 1`, and after exhausting them returns null. -/
def getTokenMetadataFromUri (fetch : Nat → FetchOutcome) (uriValid : Bool)
    (maxRetries : Nat) : MetaFetchResult :=
  if uriValid then fetchLoop fetch maxRetries (List.range maxRetries)
  else ⟨0, [], none⟩

/-- C5: for every payload whose first 8 bytes differ from the fixed
discriminator (including every payload shorter than 8 bytes, whose
8-byte prefix is necessarily shorter than the discriminator), the
decoder returns `notMatched` and invokes no downstream processing,
whatever the coder would have produced on the remaining content. -/
theorem discriminator_gate (coder : List Nat → Option NamedEvent)
    (eventData : List Nat)
    (h : eventData.take 8 ≠ CREATE_EVENT_DISCRIMINATOR) :
    parseEventFromLog coder eventData = ParseResult.notMatched := by
  unfold parseEventFromLog
  by_cases hl : 8 ≤ eventData.length
  · simp [hl, h]
  · simp [hl]

/-- Witness for `discriminator_gate` at a concrete 3-byte payload. -/
theorem discriminator_gate_witness :
    ([5, 6, 7] : List Nat).take 8 ≠ CREATE_EVENT_DISCRIMINATOR ∧
      parseEventFromLog (fun _ => none) [5, 6, 7] = ParseResult.notMatched :=
  ⟨by decide, discriminator_gate (fun _ => none) [5, 6, 7] (by decide)⟩

/-- C6: with `maxRetries = 5` and every attempt throwing (timeout or
network error), `getTokenMetadataFromUri` issues exactly 5 HTTP
attempts, awaits exactly the delays 1000 ms, 2000 ms, 4000 ms, 8000 ms
(no fifth delay after the final attempt), and returns null. -/
theorem backoff_schedule (fetch : Nat → FetchOutcome)
    (h : ∀ i, i < 5 → fetch i = FetchOutcome.fail) :
    getTokenMetadataFromUri fetch true 5 =
      ⟨5, [1000, 2000, 4000, 8000], none⟩ := by
  have hr : List.range 5 = [0, 1, 2, 3, 4] := rfl
  simp [getTokenMetadataFromUri, hr, fetchLoop,
    h 0 (by norm_num), h 1 (by norm_num), h 2 (by norm_num),
    h 3 (by norm_num), h 4 (by norm_num)]

/-- Witness for `backoff_schedule` with every attempt failing. -/
theorem backoff_schedule_witness :
    getTokenMetadataFromUri (fun _ => FetchOutcome.fail) true 5 =
      ⟨5, [1000, 2000, 4000, 8000], none⟩ :=
  backoff_schedule (fun _ => FetchOutcome.fail) (fun _ _ => rfl)

/-- The `TokenDocument` interface shared by the store layers
(src/lib/db/queries.ts, src/lib/db/sqlite.ts): the record a write path
hands to a store. -/
structure TokenDocument where
  bondingCurveAddress : String
  complete : Bool
  creator : String
  tokenAddress : String
  name : String
  symbol : String
  uri : String
  description : String
  image : String
deriving DecidableEq, Repr

/-- A persisted row of the `tokens` table: the document fields plus the
`createdAt` and `updatedAt` timestamp columns. -/
structure TokenRow where
  bondingCurveAddress : String
  complete : Bool
  creator : String
  tokenAddress : String
  name : String
  symbol : String
  uri : String
  description : String
  image : String
  createdAt : Nat
  updatedAt : Nat
deriving DecidableEq, Repr

/-- A freshly inserted row: both timestamp columns take the current
time (`createdAt DATETIME DEFAULT CURRENT_TIMESTAMP`, `updatedAt`
written by the insert). -/
def mkRow (t : TokenDocument) (now : Nat) : TokenRow :=
  ⟨t.bondingCurveAddress, t.complete, t.creator, t.tokenAddress,
    t.name, t.symbol, t.uri, t.description, t.image, now, now⟩

/-- The change guard of the conditional batch `UPDATE`
(src/lib/db/sqlite.ts `insertTokensBatch`, and the `setWhere` of
src/lib/db/queries.ts `insertTokensBatch`): true when at least one
non-key field of the incoming document differs from the stored row.
`bondingCurveAddress` and `tokenAddress` are not compared. -/
def nonKeyDiffers (r : TokenRow) (t : TokenDocument) : Bool :=
  r.complete != t.complete || r.creator != t.creator || r.name != t.name ||
    r.symbol != t.symbol || r.uri != t.uri ||
    r.description != t.description || r.image != t.image

/-- The `SET` list of the batch `UPDATE`: every non-key field is
overwritten with the incoming value and `updatedAt` is set to the
current time; the key columns and `createdAt` are untouched. -/
def applyBatchUpdate (r : TokenRow) (t : TokenDocument) (now : Nat) : TokenRow :=
  { r with
    complete := t.complete,
    creator := t.creator,
    name := t.name,
    symbol := t.symbol,
    uri := t.uri,
    description := t.description,
    image := t.image,
    updatedAt := now }

/-- Whether an `INSERT OR IGNORE` of `t` hits a unique-constraint
conflict: the table declares `bondingCurveAddress TEXT UNIQUE` and
`tokenAddress TEXT UNIQUE`, so a conflict is a stored row sharing
either key. -/
def hasConflict (db : List TokenRow) (t : TokenDocument) : Bool :=
  db.any fun r =>
    r.bondingCurveAddress == t.bondingCurveAddress ||
      r.tokenAddress == t.tokenAddress

/-- State of one run of `insertTokensBatch`: the table plus the
`inserted` / `duplicates` / `errors` counters it returns. -/
structure BatchResult where
  db : List TokenRow
  inserted : Nat
  duplicates : Nat
  errors : Nat
deriving DecidableEq, Repr

/-- One iteration of the loop in `SQLDatabase.insertTokensBatch`
(src/lib/db/sqlite.ts): try `INSERT OR IGNORE`; if it inserted, count
an insert; otherwise run the conditional `UPDATE ... WHERE tokenAddress
= ? AND (complete != ? OR ...)`, counting an insert when the update
changed a row and a duplicate when it did not. -/
def insertTokensBatchStep (now : Nat) (s : BatchResult) (t : TokenDocument) :
    BatchResult :=
  if hasConflict s.db t then
    let updated := s.db.any fun r =>
      r.tokenAddress == t.tokenAddress && nonKeyDiffers r t
    { s with
      db := s.db.map (fun r =>
        if r.tokenAddress == t.tokenAddress && nonKeyDiffers r t then
          applyBatchUpdate r t now
        else r),
      inserted := if updated then s.inserted + 1 else s.inserted,
      duplicates := if updated then s.duplicates else s.duplicates + 1 }
  else
    { s with db := s.db ++ [mkRow t now], inserted := s.inserted + 1 }

/-- Unfolding of the batch step in the conflict case. -/
lemma step_db_conflict (now : Nat) (s : BatchResult) (t : TokenDocument)
    (h : hasConflict s.db t = true) :
    (insertTokensBatchStep now s t).db = s.db.map (fun r =>
      if r.tokenAddress == t.tokenAddress && nonKeyDiffers r t then
        applyBatchUpdate r t now
      else r) := by
  unfold insertTokensBatchStep
  rw [if_pos h]

/-- Unfolding of the batch step in the fresh-insert case. -/
lemma step_db_insert (now : Nat) (s : BatchResult) (t : TokenDocument)
    (h : ¬ hasConflict s.db t = true) :
    (insertTokensBatchStep now s t).db = s.db ++ [mkRow t now] := by
  unfold insertTokensBatchStep
  rw [if_neg h]

/-- `SQLDatabase.insertTokensBatch` (src/lib/db/sqlite.ts): the
transaction folds the per-token step over the list.  The Drizzle
variant (`DrizzleDatabase.insertTokensBatch`, src/lib/db/queries.ts)
realises the same row semantics with `onConflictDoUpdate` plus a
`setWhere` over the same seven non-key fields. -/
def insertTokensBatch (now : Nat) (db : List TokenRow)
    (ts : List TokenDocument) : BatchResult :=
  ts.foldl (insertTokensBatchStep now) ⟨db, 0, 0, 0⟩

/-- The conditional batch update rewrites no key column, so conflicts
are preserved by it. -/
lemma hasConflict_map_update (db : List TokenRow) (u t : TokenDocument)
    (now : Nat) :
    hasConflict (db.map (fun r =>
        if r.tokenAddress == u.tokenAddress && nonKeyDiffers r u then
          applyBatchUpdate r u now
        else r)) t
      = hasConflict db t := by
  induction db with
  | nil => rfl
  | cons r rest ih =>
    unfold hasConflict at ih ⊢
    simp only [List.map_cons, List.any_cons]
    rw [ih]
    congr 1
    by_cases hc : (r.tokenAddress == u.tokenAddress && nonKeyDiffers r u) = true
    · rw [if_pos hc]
      rfl
    · rw [if_neg hc]

/-- A batch-upsert step never removes a conflict already present. -/
lemma hasConflict_step (now : Nat) (s : BatchResult) (u t : TokenDocument)
    (h : hasConflict s.db t = true) :
    hasConflict (insertTokensBatchStep now s u).db t = true := by
  by_cases hcu : hasConflict s.db u = true
  · rw [step_db_conflict now s u hcu, hasConflict_map_update]
    exact h
  · rw [step_db_insert now s u hcu]
    unfold hasConflict at h ⊢
    simp [List.any_append, h]

/-- After processing `t`, the table conflicts with `t` itself: either
it already did, or the step just inserted a row carrying `t`'s keys. -/
lemma hasConflict_step_self (now : Nat) (s : BatchResult) (t : TokenDocument) :
    hasConflict (insertTokensBatchStep now s t).db t = true := by
  by_cases hct : hasConflict s.db t = true
  · rw [step_db_conflict now s t hct, hasConflict_map_update]
    exact hct
  · rw [step_db_insert now s t hct]
    unfold hasConflict
    simp [List.any_append, mkRow]

/-- When the incoming document conflicts, the step only maps the table
and keeps its length. -/
lemma step_length (now : Nat) (s : BatchResult) (t : TokenDocument)
    (h : hasConflict s.db t = true) :
    (insertTokensBatchStep now s t).db.length = s.db.length := by
  rw [step_db_conflict now s t h, List.length_map]

/-- Folding the batch step preserves any conflict already present. -/
lemma hasConflict_fold (now : Nat) (ts : List TokenDocument) :
    ∀ (s : BatchResult) (t : TokenDocument), hasConflict s.db t = true →
      hasConflict (ts.foldl (insertTokensBatchStep now) s).db t = true := by
  induction ts with
  | nil => intro s t h; exact h
  | cons u rest ih =>
    intro s t h
    exact ih _ t (hasConflict_step now s u t h)

/-- After a whole batch, every document of the batch conflicts with the
resulting table. -/
lemma hasConflict_after_batch (now : Nat) (ts : List TokenDocument) :
    ∀ (s : BatchResult) (t : TokenDocument), t ∈ ts →
      hasConflict (ts.foldl (insertTokensBatchStep now) s).db t = true := by
  induction ts with
  | nil => intro s t ht; cases ht
  | cons u rest ih =>
    intro s t ht
    rcases List.mem_cons.mp ht with h | h
    · subst h
      exact hasConflict_fold now rest _ t (hasConflict_step_self now s t)
    · exact ih _ t h

/-- A batch whose documents all conflict with the table adds no row. -/
lemma fold_length_of_conflicts (now : Nat) (ts : List TokenDocument) :
    ∀ (s : BatchResult), (∀ t ∈ ts, hasConflict s.db t = true) →
      (ts.foldl (insertTokensBatchStep now) s).db.length = s.db.length := by
  induction ts with
  | nil => intro s _; rfl
  | cons u rest ih =>
    intro s h
    have hu := h u (List.mem_cons_self u rest)
    have hrest : ∀ t ∈ rest,
        hasConflict (insertTokensBatchStep now s u).db t = true :=
      fun t ht => hasConflict_step now s u t (h t (List.mem_cons_of_mem u ht))
    rw [List.foldl_cons, ih _ hrest, step_length now s u hu]

/-- A step changes a row's `updatedAt` only through the conditional
update, whose guard demands a key match and a differing non-key field. -/
lemma step_updatedAt (now : Nat) (s : BatchResult) (t : TokenDocument)
    (i : Nat) (r r' : TokenRow)
    (hr : s.db.get? i = some r)
    (hr' : (insertTokensBatchStep now s t).db.get? i = some r')
    (hne : r'.updatedAt ≠ r.updatedAt) :
    r.tokenAddress = t.tokenAddress ∧ nonKeyDiffers r t = true := by
  by_cases hc : hasConflict s.db t = true
  · rw [step_db_conflict now s t hc, List.get?_map, hr] at hr'
    simp only [Option.map_some', Option.some.injEq] at hr'
    by_cases hcond : (r.tokenAddress == t.tokenAddress && nonKeyDiffers r t) = true
    · rw [Bool.and_eq_true] at hcond
      exact ⟨eq_of_beq hcond.1, hcond.2⟩
    · rw [if_neg hcond] at hr'
      exact absurd (hr' ▸ rfl) hne
  · rw [step_db_insert now s t hc] at hr'
    have hi : i < s.db.length := by
      rcases List.get?_eq_some.mp hr with ⟨hlt, _⟩
      exact hlt
    rw [List.get?_append hi, hr] at hr'
    injection hr' with hr'
    exact absurd (hr' ▸ rfl) hne

/-- C3: (a) running `insertTokensBatch` a second time with the same
list adds no row — the table's row count is that of a single run; and
(b) a step of the batch changes a stored row's `updatedAt` only when
the incoming document matches its `tokenAddress` and differs in at
least one of the non-key fields `complete`, `creator`, `name`,
`symbol`, `uri`, `description`, `image`. -/
theorem idempotent_batch_upsert :
    (∀ (now₁ now₂ : Nat) (db : List TokenRow) (ts : List TokenDocument),
      (insertTokensBatch now₂ (insertTokensBatch now₁ db ts).db ts).db.length
        = (insertTokensBatch now₁ db ts).db.length) ∧
    (∀ (now : Nat) (s : BatchResult) (t : TokenDocument) (i : Nat)
      (r r' : TokenRow),
      s.db.get? i = some r →
      (insertTokensBatchStep now s t).db.get? i = some r' →
      r'.updatedAt ≠ r.updatedAt →
      r.tokenAddress = t.tokenAddress ∧ nonKeyDiffers r t = true) := by
  constructor
  · intro now₁ now₂ db ts
    exact fold_length_of_conflicts now₂ ts ⟨(insertTokensBatch now₁ db ts).db, 0, 0, 0⟩
      (fun t ht => hasConflict_after_batch now₁ ts ⟨db, 0, 0, 0⟩ t ht)
  · exact step_updatedAt

/-- Sample stored row for the C3 witness. -/
def c3Row : TokenRow :=
  ⟨"bc3", false, "cr", "tk3", "Old", "S", "u", "d", "i", 0, 0⟩

/-- Sample incoming document for the C3 witness: same keys as `c3Row`
but a different `name`. -/
def c3Doc : TokenDocument :=
  ⟨"bc3", false, "cr", "tk3", "New", "S", "u", "d", "i"⟩

/-- Witness for `idempotent_batch_upsert` at concrete inputs. -/
theorem idempotent_batch_upsert_witness :
    ((insertTokensBatch 2 (insertTokensBatch 1 [] [c3Doc]).db [c3Doc]).db.length
        = (insertTokensBatch 1 [] [c3Doc]).db.length) ∧
    (c3Row.tokenAddress = c3Doc.tokenAddress ∧ nonKeyDiffers c3Row c3Doc = true) :=
  ⟨idempotent_batch_upsert.1 1 2 [] [c3Doc],
    idempotent_batch_upsert.2 7 ⟨[c3Row], 0, 0, 0⟩ c3Doc 0 c3Row
      (applyBatchUpdate c3Row c3Doc 7) (by decide) (by decide) (by decide)⟩

/-- The mutable state of `PumpFunEventListener`
(src/lib/models/PumpfunEventListener.ts, dual-store variant): the log
subscription id, whether the 5-minute MongoDB flush timer is armed, and
the in-memory queue of records awaiting the secondary store. -/
structure ListenerState where
  logSubscriptionId : Option Nat
  mongoUpdateInterval : Bool
  mongoQueue : List TokenDocument
deriving DecidableEq, Repr

/-- Outcome of the underlying MongoDB driver call
(`collection.insertOne`) made inside `insertToken`: a resolved insert,
a thrown duplicate-key error (code 11000), or any other thrown error
(network failure, server error). -/
inductive MongoWriteOutcome where
  | inserted : MongoWriteOutcome
  | duplicateKey : MongoWriteOutcome
  | failure : MongoWriteOutcome
deriving DecidableEq, Repr

/-- `insertToken` (src/lib/db/mongoDB.ts), the secondary-store write
the flush calls: its whole body is wrapped in `try`/`catch`.  A
resolved `insertOne` returns `true`; a thrown duplicate-key error
(code 11000) is caught and returns `true`; every other throw is
caught, logged, and returns `false`.  The function never rethrows, so
its promise always resolves with a boolean. -/
def insertTokenMongo (insertOne : TokenDocument → MongoWriteOutcome)
    (t : TokenDocument) : Bool :=
  match insertOne t with
  | MongoWriteOutcome.inserted => true
  | MongoWriteOutcome.duplicateKey => true
  | MongoWriteOutcome.failure => false

/-- One iteration of the loop in `flushMongoQueue`.  The code is
`try { await insertToken(tokenDocument); successCount++; }
catch { errorCount++; this.mongoQueue.push(tokenDocument); }`: the
boolean `insertToken` resolves with is ignored — a resolved call counts
as a success whatever it returned — and only a rejected promise reaches
the `catch` that re-enqueues.  `insertTokenImpl` is the called
implementation, `Except.error` standing for a rejected promise. -/
def flushStep (insertTokenImpl : TokenDocument → Except String Bool)
    (acc : List TokenDocument × Nat × Nat) (t : TokenDocument) :
    List TokenDocument × Nat × Nat :=
  match insertTokenImpl t with
  | Except.ok _ => (acc.1, acc.2.1 + 1, acc.2.2)
  | Except.error _ => (acc.1 ++ [t], acc.2.1, acc.2.2 + 1)

/-- `flushMongoQueue` (src/lib/models/PumpfunEventListener.ts): if the
queue is empty, return at once; otherwise snapshot the queue
(`tokensToSync = [...this.mongoQueue]`), clear it immediately, then
iterate the snapshot with `flushStep`.  `arrivals` are the records
other callbacks enqueue while the flush is awaiting its writes — they
land on the live (already cleared) queue, never on the snapshot.
Returns the new state with the success and error counters. -/
def flushMongoQueue (insertTokenImpl : TokenDocument → Except String Bool)
    (arrivals : List TokenDocument) (s : ListenerState) :
    ListenerState × Nat × Nat :=
  if s.mongoQueue.isEmpty then
    ({ s with mongoQueue := s.mongoQueue ++ arrivals }, 0, 0)
  else
    let snapshot := s.mongoQueue
    let res := snapshot.foldl (flushStep insertTokenImpl) (arrivals, 0, 0)
    ({ s with mongoQueue := res.1 }, res.2.1, res.2.2)

/-- Sample queued record whose secondary-store write succeeds. -/
def c4Good : TokenDocument := ⟨"bcA", false, "cr", "tkA", "A", "S", "u", "", ""⟩

/-- The queued record whose secondary-store write fails. -/
def c4Bad : TokenDocument := ⟨"bcB", false, "cr", "tkB", "B", "S", "u", "", ""⟩

/-- Driver behaviour for the C4 failing input: `insertOne` throws a
non-duplicate error exactly for `c4Bad`'s token address and resolves
for every other record. -/
def c4InsertOne (t : TokenDocument) : MongoWriteOutcome :=
  if t.tokenAddress == "tkB" then MongoWriteOutcome.failure
  else MongoWriteOutcome.inserted

/-- C4, evaluated at the failing input: the re-enqueue branch of
`flushMongoQueue` is unreachable against the repository's own
`insertToken`, which catches every error and resolves with `false`,
while the flush ignores that boolean.  Flushing a three-record queue
whose middle record's underlying write fails shows `insertToken`
reporting the failure as `false` — yet the flush counts three
successes and zero errors and leaves the queue empty.  The failed
record is dropped, not retained, contradicting the flush's own
re-add-failed-tokens-to-the-queue comment and the claimed policy. -/
theorem failed_write_dropped :
    insertTokenMongo c4InsertOne c4Bad = false ∧
    (flushMongoQueue (fun t => Except.ok (insertTokenMongo c4InsertOne t)) []
        ⟨some 1, true, [c4Good, c4Bad, c4Good]⟩).1.mongoQueue = [] ∧
    (flushMongoQueue (fun t => Except.ok (insertTokenMongo c4InsertOne t)) []
        ⟨some 1, true, [c4Good, c4Bad, c4Good]⟩).2 = (3, 0) := by
  refine ⟨rfl, ?_, ?_⟩ <;> decide

/-- The three teardown effects of `stopListening`
(src/lib/models/PumpfunEventListener.ts). -/
inductive ShutdownAction where
  | removeOnLogsListener : ShutdownAction
  | clearFlushInterval : ShutdownAction
  | finalFlush : ShutdownAction
deriving DecidableEq, Repr

/-- `stopListening` (src/lib/models/PumpfunEventListener.ts): if a log
subscription is registered, remove it and null the id; if the MongoDB
update timer is armed, clear it; then run one final `flushMongoQueue`.
The returned action list records the order in which the effects run. -/
def stopListening (insertTokenImpl : TokenDocument → Except String Bool)
    (s : ListenerState) : List ShutdownAction × ListenerState :=
  let p₁ :=
    if s.logSubscriptionId.isSome then
      ([ShutdownAction.removeOnLogsListener], { s with logSubscriptionId := none })
    else ([], s)
  let p₂ :=
    if p₁.2.mongoUpdateInterval then
      ([ShutdownAction.clearFlushInterval], { p₁.2 with mongoUpdateInterval := false })
    else ([], p₁.2)
  (p₁.1 ++ p₂.1 ++ [ShutdownAction.finalFlush],
    (flushMongoQueue insertTokenImpl [] p₂.2).1)

/-- C8: on a graceful shutdown of a running listener (subscription
registered, flush timer armed), the teardown effects happen in exactly
the order: unregister the log subscription, cancel the periodic flush
timer, run one final flush of the secondary-store queue. -/
theorem shutdown_teardown_order
    (insertTokenImpl : TokenDocument → Except String Bool)
    (s : ListenerState)
    (hsub : s.logSubscriptionId.isSome = true)
    (htimer : s.mongoUpdateInterval = true) :
    (stopListening insertTokenImpl s).1 =
      [ShutdownAction.removeOnLogsListener, ShutdownAction.clearFlushInterval,
        ShutdownAction.finalFlush] := by
  unfold stopListening
  rw [if_pos hsub]
  simp only [htimer, if_true]
  rfl

/-- Witness for `shutdown_teardown_order` on a concrete running state. -/
theorem shutdown_teardown_order_witness :
    (stopListening (fun _ => Except.ok true) ⟨some 3, true, [c4Good]⟩).1 =
      [ShutdownAction.removeOnLogsListener, ShutdownAction.clearFlushInterval,
        ShutdownAction.finalFlush] :=
  shutdown_teardown_order (fun _ => Except.ok true) ⟨some 3, true, [c4Good]⟩
    rfl rfl

/-- `DrizzleDatabase.insertToken` (src/lib/db/queries.ts): an insert
with `onConflictDoUpdate` targeting `tokenAddress`.  On conflict every
non-key field — `complete` included — is overwritten unconditionally
with the incoming (`EXCLUDED`) value and `updatedAt` is set to the
current time; otherwise a fresh row is inserted. -/
def drizzleInsertToken (now : Nat) (db : List TokenRow) (t : TokenDocument) :
    List TokenRow :=
  if db.any (fun r => r.tokenAddress == t.tokenAddress) then
    db.map (fun r =>
      if r.tokenAddress == t.tokenAddress then applyBatchUpdate r t now else r)
  else db ++ [mkRow t now]

/-- `SQLDatabase.insertToken` (src/lib/db/sqlite.ts): an
`INSERT OR REPLACE` keyed on the two unique columns — every stored row
sharing `bondingCurveAddress` or `tokenAddress` is deleted and a fresh
row with the incoming values is inserted. -/
def sqliteInsertToken (now : Nat) (db : List TokenRow) (t : TokenDocument) :
    List TokenRow :=
  (db.filter (fun r =>
    !(r.bondingCurveAddress == t.bondingCurveAddress ||
      r.tokenAddress == t.tokenAddress))) ++ [mkRow t now]

/-- `processCreateEvent` of the dual-store listener variant
(src/lib/models/PumpfunEventListener.ts, SQLite + MongoDB): fetch the
metadata behind the event's URI, and if that returns null, log and
return — no token document is built and nothing is written.  Otherwise
the written document carries `complete: false` and the fetched
description and image. -/
def processCreateEventDualStore (event : CreateEvent)
    (uriMeta : Option TokenMetadata) : Option TokenDocument :=
  match uriMeta with
  | none => none
  | some m =>
    some ⟨event.bonding_curve, false, event.creator, event.mint,
      event.name, event.symbol, event.uri, m.description, m.image⟩

/-- `processCreateEvent` of the Drizzle/Postgres listener variant
(src/lib/models/PumpfunEventListener.ts): the document is always built
and written, with `complete: false`, and with
`uriMeta?.description || ''` / `uriMeta?.image || ''` falling back to
the empty string when the metadata fetch returned null.
(`safeStringify` on values already typed `string` is the identity.) -/
def processCreateEventDrizzle (event : CreateEvent)
    (uriMeta : Option TokenMetadata) : TokenDocument :=
  ⟨event.bonding_curve, false, event.creator, event.mint,
    event.name, event.symbol, event.uri,
    (match uriMeta with | some m => m.description | none => ""),
    (match uriMeta with | some m => m.image | none => "")⟩

/-- Concrete stored row for C1: its bonding curve has completed. -/
def c1Row : TokenRow := ⟨"bc1", true, "cr", "tk1", "N", "S", "u", "d", "i", 0, 0⟩

/-- Concrete create-event for C1 and C2, carrying `c1Row`'s keys. -/
def c1Event : CreateEvent :=
  ⟨"N", "S", "u", "tk1", "bc1", "us", "cr", "0", "0", "0", "0", "0"⟩

/-- C1 counterexample: the claim that `complete` can never transition
from `true` back to `false` fails on the code.  The listener write path
always carries `complete: false`, and the single-token upsert
overwrites `complete` unconditionally on conflict: writing the
listener's document for `c1Event` over the stored row `c1Row` (whose
`complete` is `true`) leaves the store with `complete = false`. -/
theorem complete_flag_regression :
    c1Row.complete = true ∧
    (drizzleInsertToken 5 [c1Row]
        (processCreateEventDrizzle c1Event none)).map TokenRow.complete
      = [false] := by
  constructor
  · rfl
  · decide

/-- C1 amended: `complete` is `false` at creation — every document the
listener builds from a create-event carries `complete = false` — and
each upsert write path simply copies the incoming record's `complete`
into the store (no monotonicity guard): after `drizzleInsertToken`,
every row keyed by the incoming `tokenAddress` has exactly the incoming
`complete` value. -/
theorem complete_flag_creation_and_copy :
    (∀ (event : CreateEvent) (uriMeta : Option TokenMetadata),
      (processCreateEventDrizzle event uriMeta).complete = false) ∧
    (∀ (event : CreateEvent) (uriMeta : Option TokenMetadata)
      (d : TokenDocument),
      processCreateEventDualStore event uriMeta = some d →
      d.complete = false) ∧
    (∀ (now : Nat) (db : List TokenRow) (t : TokenDocument) (r : TokenRow),
      r ∈ drizzleInsertToken now db t → r.tokenAddress = t.tokenAddress →
      r.complete = t.complete) := by
  refine ⟨fun _ _ => rfl, ?_, ?_⟩
  · intro event uriMeta d h
    cases uriMeta with
    | none => exact absurd h (by simp [processCreateEventDualStore])
    | some m =>
      unfold processCreateEventDualStore at h
      injection h with h
      rw [← h]
  · intro now db t r hr hkey
    unfold drizzleInsertToken at hr
    by_cases hc : db.any (fun r => r.tokenAddress == t.tokenAddress) = true
    · rw [if_pos hc] at hr
      rcases List.mem_map.mp hr with ⟨r₀, _, hmap⟩
      by_cases h₀ : (r₀.tokenAddress == t.tokenAddress) = true
      · rw [if_pos h₀] at hmap
        rw [← hmap]
        rfl
      · rw [if_neg h₀] at hmap
        rw [← hmap] at hkey
        exact absurd (beq_iff_eq.mpr hkey) h₀
    · rw [if_neg hc] at hr
      rcases List.mem_append.mp hr with hin | hnew
      · rw [List.any_eq_true] at hc
        push_neg at hc
        have := hc r hin
        exact absurd (beq_iff_eq.mpr hkey) (by simpa using this)
      · rcases List.mem_singleton.mp hnew with h
        rw [h]
        rfl

/-- Witness for `complete_flag_creation_and_copy` at concrete inputs. -/
theorem complete_flag_creation_and_copy_witness :
    ((processCreateEventDrizzle c1Event none).complete = false) ∧
    ((⟨"bc1", false, "cr", "tk1", "N", "S", "u", "d", "i"⟩ : TokenDocument).complete
      = false) ∧
    ((applyBatchUpdate c1Row ⟨"bc1", false, "cr", "tk1", "N", "S", "u", "d", "i"⟩ 5).complete
      = (⟨"bc1", false, "cr", "tk1", "N", "S", "u", "d", "i"⟩ : TokenDocument).complete) :=
  ⟨complete_flag_creation_and_copy.1 c1Event none,
    complete_flag_creation_and_copy.2.1 c1Event
      (some ⟨"", "N", "S", "u", "d", "i"⟩)
      ⟨"bc1", false, "cr", "tk1", "N", "S", "u", "d", "i"⟩ (by decide),
    complete_flag_creation_and_copy.2.2 5 [c1Row]
      ⟨"bc1", false, "cr", "tk1", "N", "S", "u", "d", "i"⟩
      (applyBatchUpdate c1Row ⟨"bc1", false, "cr", "tk1", "N", "S", "u", "d", "i"⟩ 5)
      (by decide) (by decide)⟩

/-- C2 counterexample: in the dual-store listener variant, a decoded
create-event whose metadata fetch returns null (after exhausting all
retries) is dropped — `processCreateEvent` returns before building the
document, so nothing is persisted to the primary store. -/
theorem null_metadata_drops_event :
    processCreateEventDualStore c1Event none = none := by
  rfl

/-- C2 amended: only the Drizzle listener variant persists on a null
metadata result — with empty `description` and `image` — while the
dual-store variant persists nothing: its write happens only when the
metadata fetch succeeded. -/
theorem null_metadata_still_persists :
    (∀ (event : CreateEvent),
      (processCreateEventDrizzle event none).description = "" ∧
      (processCreateEventDrizzle event none).image = "") ∧
    (∀ (event : CreateEvent) (uriMeta : Option TokenMetadata)
      (d : TokenDocument),
      processCreateEventDualStore event uriMeta = some d →
      uriMeta ≠ none) := by
  constructor
  · intro event
    exact ⟨rfl, rfl⟩
  · intro event uriMeta d h hnone
    rw [hnone] at h
    exact Option.noConfusion h

/-- Witness for `null_metadata_still_persists` at concrete inputs. -/
theorem null_metadata_still_persists_witness :
    ((processCreateEventDrizzle c1Event none).description = "" ∧
      (processCreateEventDrizzle c1Event none).image = "") ∧
    ((some ⟨"", "N", "S", "u", "d", "i"⟩ : Option TokenMetadata) ≠ none) :=
  ⟨null_metadata_still_persists.1 c1Event,
    null_metadata_still_persists.2 c1Event (some ⟨"", "N", "S", "u", "d", "i"⟩)
      ⟨"bc1", false, "cr", "tk1", "N", "S", "u", "d", "i"⟩ (by decide)⟩

/-- The body of the subscription callback for one log line carrying the
`Program data:` marker: `parseEventFromLog` wraps its whole body in
`try`/`catch`, so a thrown error is logged and swallowed — the callback
sees a normal return either way. -/
def processLogLine (pipeline : String → Except String Unit)
    (logLine : String) : Except String Unit :=
  match pipeline logLine with
  | Except.ok _ => Except.ok ()
  | Except.error _ => Except.ok ()

/-- The `onLogs` subscription callback (src/lib/models/
PumpfunEventListener.ts): iterate the delivered log lines in order,
handing each to the per-line handler.  An uncaught exception from a
handler would abort the remaining lines and propagate out of the
callback (the `Except.error` branch). -/
def onLogsCallback (pipeline : String → Except String Unit) :
    List String → Except String Unit
  | [] => Except.ok ()
  | logLine :: rest =>
    match processLogLine pipeline logLine with
    | Except.ok _ => onLogsCallback pipeline rest
    | Except.error e => Except.error e

/-- Progress of the backfill loop in `getFreshTokenList`
(src/lib/models/PumpfunTokenFetcher.ts): how many addresses the loop
reached, and the documents collected for batch insertion. -/
structure BackfillResult where
  attempted : Nat
  collected : List TokenDocument
deriving DecidableEq, Repr

/-- One iteration of the backfill loop: the body is wrapped in
`try`/`catch` with `continue`, so an address whose processing throws is
logged and skipped, an address with no data (`null`) is skipped, and a
successful one is pushed onto the token batch. -/
def backfillStep (process : String → Except String (Option TokenDocument))
    (st : BackfillResult) (a : String) : BackfillResult :=
  match process a with
  | Except.ok (some t) => ⟨st.attempted + 1, st.collected ++ [t]⟩
  | Except.ok none => ⟨st.attempted + 1, st.collected⟩
  | Except.error _ => ⟨st.attempted + 1, st.collected⟩

/-- The per-address loop of `getFreshTokenList`. -/
def getFreshTokenListLoop (process : String → Except String (Option TokenDocument))
    (addrs : List String) : BackfillResult :=
  addrs.foldl (backfillStep process) ⟨0, []⟩

/-- Every backfill iteration advances to the next address, whatever the
outcome of processing this one. -/
lemma backfillStep_attempted (process : String → Except String (Option TokenDocument))
    (st : BackfillResult) (a : String) :
    (backfillStep process st a).attempted = st.attempted + 1 := by
  unfold backfillStep
  cases hp : process a with
  | error e => rfl
  | ok o =>
    cases o with
    | none => rfl
    | some t => rfl

/-- The backfill fold visits every address. -/
lemma backfillLoop_attempted (process : String → Except String (Option TokenDocument))
    (addrs : List String) :
    ∀ st : BackfillResult,
      (addrs.foldl (backfillStep process) st).attempted
        = st.attempted + addrs.length := by
  induction addrs with
  | nil => intro st; simp
  | cons a rest ih =>
    intro st
    rw [List.foldl_cons, ih, backfillStep_attempted]
    simp [Nat.add_comm, Nat.add_assoc]
    omega

/-- C7: (a) whatever a single event's decode/enrich/write pipeline does
— including throwing — the subscription callback returns normally: no
exception propagates out of it for any batch of log lines; and (b) the
backfill loop reaches every address: a failure on one address never
aborts processing of the remaining addresses. -/
theorem per_item_failure_isolation :
    (∀ (pipeline : String → Except String Unit) (logs : List String),
      onLogsCallback pipeline logs = Except.ok ()) ∧
    (∀ (process : String → Except String (Option TokenDocument))
      (addrs : List String),
      (getFreshTokenListLoop process addrs).attempted = addrs.length) := by
  constructor
  · intro pipeline logs
    induction logs with
    | nil => rfl
    | cons logLine rest ih =>
      unfold onLogsCallback processLogLine
      cases hp : pipeline logLine with
      | error e => exact ih
      | ok u => exact ih
  · intro process addrs
    unfold getFreshTokenListLoop
    rw [backfillLoop_attempted]
    simp

/-- The address diff of `getFreshTokenList`
(src/lib/models/PumpfunTokenFetcher.ts): keep exactly the on-chain
bonding-curve addresses that are not already persisted
(`bondingAddresses.filter(address => !existingAddresses.includes(address))`,
with the persisted set read from the primary store's distinct
`bondingCurveAddress` values). -/
def getFreshTokenListNewAddresses (bondingAddresses existingAddresses : List String) :
    List String :=
  bondingAddresses.filter (fun a => !(existingAddresses.contains a))

/-- C9: the backfill job processes exactly the set difference
`onChainAddresses - alreadyPersistedAddresses` (string equality on
addresses), and a stored row whose non-key fields already equal the
incoming record is left untouched by the batch upsert — so an
already-persisted record with unchanged data is never modified. -/
theorem backfill_processes_set_difference :
    (∀ (onChain existing : List String) (a : String),
      a ∈ getFreshTokenListNewAddresses onChain existing ↔
        (a ∈ onChain ∧ a ∉ existing)) ∧
    (∀ (now : Nat) (s : BatchResult) (t : TokenDocument) (i : Nat)
      (r : TokenRow),
      s.db.get? i = some r → nonKeyDiffers r t = false →
      (insertTokensBatchStep now s t).db.get? i = some r) := by
  constructor
  · intro onChain existing a
    unfold getFreshTokenListNewAddresses
    simp [List.mem_filter]
  · intro now s t i r hr hdiff
    by_cases hc : hasConflict s.db t = true
    · rw [step_db_conflict now s t hc, List.get?_map, hr]
      simp only [Option.map_some']
      rw [hdiff, Bool.and_false]
      rfl
    · rw [step_db_insert now s t hc]
      have hi : i < s.db.length := by
        rcases List.get?_eq_some.mp hr with ⟨hlt, _⟩
        exact hlt
      rw [List.get?_append hi, hr]

/-- Stored row for the C9 witness. -/
def c9Row : TokenRow := ⟨"bc9", false, "cr", "tk9", "N", "S", "u", "d", "i", 3, 3⟩

/-- Incoming record for the C9 witness: identical non-key data. -/
def c9Doc : TokenDocument := ⟨"bc9", false, "cr", "tk9", "N", "S", "u", "d", "i"⟩

/-- Witness for `backfill_processes_set_difference`: on-chain set
`{A, B, C}` against persisted set `{A}` processes `B`, and re-upserting
`c9Row`'s unchanged data leaves the row untouched. -/
theorem backfill_processes_set_difference_witness :
    ("B" ∈ getFreshTokenListNewAddresses ["A", "B", "C"] ["A"]) ∧
    (insertTokensBatchStep 9 ⟨[c9Row], 0, 0, 0⟩ c9Doc).db.get? 0 = some c9Row :=
  ⟨(backfill_processes_set_difference.1 ["A", "B", "C"] ["A"] "B").mpr
      ⟨by decide, by decide⟩,
    backfill_processes_set_difference.2 9 ⟨[c9Row], 0, 0, 0⟩ c9Doc 0 c9Row
      (by decide) (by decide)⟩

/-- The optional filters of `SQLDatabase.getAllTokensSQlite`
(src/lib/db/sqlite.ts).  JavaScript truthiness makes `limit: 0` and
`offset: 0` behave as absent, which the embedding reproduces. -/
structure QueryOptions where
  limit : Option Nat := none
  offset : Option Nat := none
  searchTerm : Option String := none
  complete : Option Bool := none
deriving DecidableEq, Repr

/-- SQL `LIKE '%pattern%'` on one column (byte-wise containment; the
ASCII case folding of SQLite `LIKE` is not modelled — no claim here
depends on case). -/
def likeContains (pattern s : String) : Bool :=
  decide (pattern.data <:+: s.data)

/-- The search condition of `getAllTokensSQlite`:
`name LIKE ? OR symbol LIKE ? OR tokenAddress LIKE ? OR description LIKE ?`. -/
def matchesSearch (searchTerm : String) (r : TokenRow) : Bool :=
  likeContains searchTerm r.name || likeContains searchTerm r.symbol ||
    likeContains searchTerm r.tokenAddress ||
    likeContains searchTerm r.description

/-- `SQLDatabase.getAllTokensSQlite` (src/lib/db/sqlite.ts): apply the
search and `complete` filters, order by `createdAt DESC`, then build
pagination the way the code builds its SQL string — `LIMIT` is appended
only `if (options?.limit)`, and `OFFSET` only inside that branch,
`if (options?.offset)`. -/
def getAllTokensSQlite (table : List TokenRow) (options : QueryOptions) :
    List TokenRow :=
  let afterSearch : List TokenRow :=
    match options.searchTerm with
    | some s => table.filter (matchesSearch s)
    | none => table
  let afterComplete : List TokenRow :=
    match options.complete with
    | some c => afterSearch.filter (fun r => r.complete == c)
    | none => afterSearch
  let ordered : List TokenRow :=
    afterComplete.mergeSort (fun a b => decide (b.createdAt ≤ a.createdAt))
  match options.limit with
  | some l =>
    if l ≠ 0 then
      match options.offset with
      | some o => if o ≠ 0 then (ordered.drop o).take l else ordered.take l
      | none => ordered.take l
    else ordered
  | none => ordered

/-- C10: when `offset` is provided without `limit`, the query ignores
the offset entirely — it returns exactly what the same query without an
offset returns, starting from the first row; `offset` can only take
effect inside the `limit` branch. -/
theorem offset_ignored_without_limit (table : List TokenRow) (o : Nat)
    (searchTerm : Option String) (complete : Option Bool) :
    getAllTokensSQlite table ⟨none, some o, searchTerm, complete⟩
      = getAllTokensSQlite table ⟨none, none, searchTerm, complete⟩ := rfl
